import Mathlib

/-!
Verification of the BMS battery-environment step engine
(`src/Environments/Environment_BMS.py`, class `BMSEnvironment`).

Real-valued quantities are embedded as rationals (`ℚ`).  The transcendental
parts of the source — `np.sin` / `np.cos` used by the synthetic exogenous
generator `_update_generation_and_load` (lines 165-175) and by the cyclic
time encodings of `_get_obs` (lines 77-97) — are abstracted as parameters
(`exo`, `TrigEnc`): every theorem below is quantified over them, so it holds
in particular for the sinusoidal instantiations of the source.

The simulation clock (`self.time`, a `datetime` reset to midnight and
advanced by `timedelta(hours=1)` per step) is embedded as a natural number
of hours since the reset-day midnight, together with the weekday `week0`
that `datetime.now()` happened to fall on at reset time; `hour` and
`weekday()` are recovered by modular arithmetic.
-/

namespace BMS

/-- Embedding of `np.clip(x, lo, hi)`: equivalent to
`np.minimum(hi, np.maximum(x, lo))`. -/
def clip (x lo hi : ℚ) : ℚ := min hi (max x lo)

/-- Constructor configuration of `BMSEnvironment.__init__` (lines 17-44).
Field names follow the `kwargs` keys. -/
structure Config where
  initial_SoC : ℚ
  SoC_min : ℚ
  SoC_max : ℚ
  Load_min : ℚ
  Load_max : ℚ
  Generation_min : ℚ
  Generation_max : ℚ
  Price_min : ℚ
  Price_mid : ℚ
  Price_max : ℚ
  a_min : ℚ
  a_max : ℚ
  max_steps : ℕ
  miu_p : ℚ
  lamda_p : ℚ
  eta : ℚ
  battery_capacity : ℚ
  time_interval : ℚ
deriving DecidableEq

/-- The default configuration values of `__init__` (lines 17-44), written
with `mkRat` so that kernel reduction can evaluate comparisons on them. -/
def defaultConfig : Config :=
  { initial_SoC := mkRat 1 2
    SoC_min := mkRat 1 10
    SoC_max := mkRat 95 100
    Load_min := 0
    Load_max := 1
    Generation_min := 0
    Generation_max := 1
    Price_min := mkRat 1 10
    Price_mid := mkRat 2 10
    Price_max := mkRat 3 10
    a_min := -1
    a_max := 1
    max_steps := 24
    miu_p := 10
    lamda_p := 10
    eta := mkRat 9 10
    battery_capacity := 10
    time_interval := 1 }

/-- An entry of `info['Violations_SoC']` (lines 105-109): the proposed SoC
and the value it was corrected to. -/
structure SoCViolation where
  value : ℚ
  corrected_to : ℚ
deriving DecidableEq

/-- An entry of `info['violations_action']` (lines 134-138): the requested
action and the value it was corrected to. -/
structure ActionViolation where
  value : ℚ
  corrected_to : ℚ
deriving DecidableEq

/-- The per-step `info` dictionary built by `_get_info` (lines 66-75) and
mutated by `_get_SoC` / `_get_action_check` during a step. -/
structure Info where
  SoC : ℚ
  Load : ℚ
  Generation : ℚ
  Violations_SoC : List SoCViolation
  violations_action : List ActionViolation
  penalty_SoC : List ℚ
  penalty_action : List ℚ
deriving DecidableEq

/-- Mutable state of the environment object: `self.SoC`, `self.L`, `self.G`,
`self.time` (hours since the reset-day midnight), the weekday of the reset
day (`week0`, 0 = Monday), and `self.current_step`. -/
structure EnvState where
  SoC : ℚ
  L : ℚ
  G : ℚ
  time : ℕ
  week0 : ℕ
  current_step : ℕ
deriving DecidableEq

/-- `_get_info` (lines 66-75): snapshot of SoC/L/G plus empty violation and
penalty lists. -/
def get_info (s : EnvState) : Info :=
  { SoC := s.SoC
    Load := s.L
    Generation := s.G
    Violations_SoC := []
    violations_action := []
    penalty_SoC := []
    penalty_action := [] }

/-- Result of one `_get_SoC` call: the updated SoC, the SoC penalty of this
call, and the mutated info dictionary. -/
structure SoCResult where
  SoC : ℚ
  penalty : ℚ
  info : Info
deriving DecidableEq

/-- `_get_SoC(action, info)` (lines 99-126): proposes
`SoC + eta * (action * time_interval) / battery_capacity`, clips it to
`[SoC_min, SoC_max]` when out of range (recording a violation), computes
`penalty = lamda_p * |proposed - adjusted|`, and appends the penalty to
`info['penalty_SoC']`. -/
def get_SoC (cfg : Config) (soc action : ℚ) (info : Info) : SoCResult :=
  let SoC_proposed := soc + cfg.eta * (action * cfg.time_interval) / cfg.battery_capacity
  if SoC_proposed < cfg.SoC_min ∨ cfg.SoC_max < SoC_proposed then
    let SoC_adjusted := clip SoC_proposed cfg.SoC_min cfg.SoC_max
    let info := { info with
      Violations_SoC := info.Violations_SoC ++ [SoCViolation.mk SoC_proposed SoC_adjusted] }
    let penalty_SoC := cfg.lamda_p * |SoC_proposed - SoC_adjusted|
    { SoC := SoC_adjusted
      penalty := penalty_SoC
      info := { info with penalty_SoC := info.penalty_SoC ++ [penalty_SoC] } }
  else
    let SoC_adjusted := SoC_proposed
    let penalty_SoC := cfg.lamda_p * |SoC_proposed - SoC_adjusted|
    { SoC := SoC_adjusted
      penalty := penalty_SoC
      info := { info with penalty_SoC := info.penalty_SoC ++ [penalty_SoC] } }

/-- Result of one `_get_action_check` call. -/
structure ActionResult where
  action : ℚ
  penalty : ℚ
  info : Info
deriving DecidableEq

/-- `_get_action_check(action, info)` (lines 128-142): clips the action to
`[action_space.low[0], action_space.high[0]] = [a_min, a_max]`, records a
violation when the action changed, and returns
`penalty = miu_p * |action - adjusted|`. -/
def get_action_check (cfg : Config) (action : ℚ) (info : Info) : ActionResult :=
  let adjusted_action := clip action cfg.a_min cfg.a_max
  let delta_action := |action - adjusted_action|
  let info :=
    if action ≠ adjusted_action then
      { info with
        violations_action := info.violations_action ++ [ActionViolation.mk action adjusted_action] }
    else info
  { action := adjusted_action
    penalty := cfg.miu_p * delta_action
    info := info }

/-- `_get_price` (lines 144-163), as a pure function of
`day_of_week` (0 = Monday, …, 6 = Sunday) and `hour`. -/
def get_price (cfg : Config) (day_of_week hour : ℕ) : ℚ :=
  if day_of_week < 5 then
    if 8 ≤ hour ∧ hour < 19 then cfg.Price_max
    else if (7 ≤ hour ∧ hour < 8) ∨ (19 ≤ hour ∧ hour < 23) then cfg.Price_mid
    else cfg.Price_min
  else if day_of_week = 5 then
    if 7 ≤ hour ∧ hour < 23 then cfg.Price_mid
    else cfg.Price_min
  else cfg.Price_min

/-- Hour-of-day of a clock value (`self.time.hour`; minutes are always 0
since resets land on midnight and steps add whole hours). -/
def hourOf (t : ℕ) : ℕ := t % 24

/-- Weekday (`self.time.weekday()`) of a clock value, given the reset-day
weekday `w0`. -/
def weekdayOf (w0 t : ℕ) : ℕ := (w0 + t / 24) % 7

/-- Abstraction of the transcendental cyclic encoders of `_get_obs`
(lines 82-85): `sin2pi x` stands for `np.sin(2 * np.pi * x)` and `cos2pi x`
for `np.cos(2 * np.pi * x)`.  All theorems are quantified over this
structure, so they hold for the real sine/cosine instantiation. -/
structure TrigEnc where
  sin2pi : ℚ → ℚ
  cos2pi : ℚ → ℚ

/-- The 7-component observation vector of `_get_obs` (lines 87-95). -/
structure Obs where
  SoC : ℚ
  L : ℚ
  G : ℚ
  hour_sin : ℚ
  hour_cos : ℚ
  day_sin : ℚ
  day_cos : ℚ
deriving DecidableEq

/-- `_get_obs` (lines 77-97): SoC, load and generation from the current
state, plus cyclic encodings of the current hour and weekday.  The code
computes `hour = self.time.hour + self.time.minute / 60.0`; minutes are
always 0 here (see `hourOf`). -/
def get_obs (enc : TrigEnc) (s : EnvState) : Obs :=
  let hour : ℚ := (hourOf s.time : ℚ)
  let day_of_week : ℚ := (weekdayOf s.week0 s.time : ℚ)
  { SoC := s.SoC
    L := s.L
    G := s.G
    hour_sin := enc.sin2pi (hour / 24)
    hour_cos := enc.cos2pi (hour / 24)
    day_sin := enc.sin2pi (day_of_week / 7)
    day_cos := enc.cos2pi (day_of_week / 7) }

/-- `_update_generation_and_load` (lines 165-175).  The raw sinusoidal
formulas `max(0, sin(pi*(hour-6)/12))` (generation) and
`0.5 + 0.5*sin(pi*(hour-17)/12)` (load) are transcendental; they are
abstracted by the parameter `exo : ℕ → ℚ × ℚ`, mapping the current hour to
the raw `(G, L)` pair (the source formulas, like `exo`, depend only on the
hour of day).  The final clipping to the configured generation/load bounds
(lines 174-175) is kept explicit. -/
def update_generation_and_load (cfg : Config) (exo : ℕ → ℚ × ℚ) (s : EnvState) :
    EnvState :=
  let hour := hourOf s.time
  { s with
    G := clip (exo hour).1 cfg.Generation_min cfg.Generation_max
    L := clip (exo hour).2 cfg.Load_min cfg.Load_max }

/-- The energy-balance resolution of `step` (lines 212-220): from the
corrected action and the net load, the "actual" battery action.
Note the discharge branch uses `min(-action_corrected, net_load)` — the
source applies no `max(net_load, 0)` guard. -/
def resolve_actual (action_corrected net_load : ℚ) : ℚ :=
  if action_corrected < 0 then
    -(min (-action_corrected) net_load)
  else if 0 < action_corrected then
    min action_corrected (max 0 (-net_load))
  else 0

/-- The net load `self.L - self.G` that `step` computes (line 208) right
after `_update_generation_and_load`, expressed from the pre-step state. -/
def netOf (cfg : Config) (exo : ℕ → ℚ × ℚ) (s : EnvState) : ℚ :=
  clip (exo (hourOf s.time)).2 cfg.Load_min cfg.Load_max -
    clip (exo (hourOf s.time)).1 cfg.Generation_min cfg.Generation_max

/-- `reset` (lines 177-187): zeroes the step counter, restores the initial
SoC, moves the clock to midnight of the reset day (whose weekday `w0` is
whatever `datetime.now()` falls on), and draws the first exogenous sample.
Returns `(observation, info)` and the resulting state. -/
def reset (cfg : Config) (exo : ℕ → ℚ × ℚ) (enc : TrigEnc) (w0 : ℕ) :
    (Obs × Info) × EnvState :=
  let s : EnvState :=
    { SoC := cfg.initial_SoC, L := 0, G := 0, time := 0, week0 := w0,
      current_step := 0 }
  let s := update_generation_and_load cfg exo s
  ((get_obs enc s, get_info s), s)

/-- What one `step` call returns (line 264):
`(observation, reward, done, False, info)`. -/
structure StepResult where
  observation : Obs
  reward : ℚ
  terminated : Bool
  truncated : Bool
  info : Info
deriving DecidableEq

/-- `step(action)` (lines 189-264), returning the `StepResult` together with
the mutated environment state.  The body mirrors the source line by line:
counter increment; fresh info; action correction; first SoC update with the
corrected action; exogenous update; energy balance and `actual_action`;
second SoC update with the residual `actual_action - action_corrected`;
grid split; price lookup (at the pre-advance clock); reward; clock advance
by one hour; observation (at the post-advance clock); termination flag. -/
def step (cfg : Config) (exo : ℕ → ℚ × ℚ) (enc : TrigEnc) (s : EnvState)
    (action : ℚ) : StepResult × EnvState :=
  let s := { s with current_step := s.current_step + 1 }
  let info := get_info s
  let ar := get_action_check cfg action info
  let action_corrected := ar.action
  let penalty_action := ar.penalty
  let r1 := get_SoC cfg s.SoC action_corrected ar.info
  let s := { s with SoC := r1.SoC }
  let penalty_SoC := r1.penalty
  let s := update_generation_and_load cfg exo s
  let net_load := s.L - s.G
  let actual_action := resolve_actual action_corrected net_load
  let r2 := get_SoC cfg s.SoC (actual_action - action_corrected) r1.info
  let s := { s with SoC := r2.SoC }
  let penalty_SoC := penalty_SoC + r2.penalty
  let net_load_after_battery := net_load + actual_action
  let P_grid := if 0 < net_load_after_battery then net_load_after_battery else 0
  let P_surplus :=
    if net_load_after_battery < 0 then -net_load_after_battery else 0
  let price := get_price cfg (weekdayOf s.week0 s.time) (hourOf s.time)
  let C_purchased := price * P_grid
  let R_sale := price * P_surplus
  let total_penalty := penalty_action + penalty_SoC
  let reward := R_sale - C_purchased - total_penalty
  let s := { s with time := s.time + 1 }
  let observation := get_obs enc s
  let done := decide (cfg.max_steps ≤ s.current_step)
  ({ observation := observation
     reward := reward
     terminated := done
     truncated := false
     info := r2.info }, s)

/-- The environment before any `reset`: `self.SoC` and `self.time` are
`None`.  `step` on such an object reaches `self.SoC + ...` inside
`_get_SoC` (line 101) and Python raises a `TypeError`, surfaced to the
caller; this embedding models the nullable state with `Option` and the
raised exception with `Except.error`.  After a `reset` the state is always
`some`, and `step` raises nothing. -/
def stepChecked (cfg : Config) (exo : ℕ → ℚ × ℚ) (enc : TrigEnc)
    (s : Option EnvState) (action : ℚ) : Except String (StepResult × EnvState) :=
  match s with
  | none => Except.error ("TypeError: unsupported operand for +: NoneType and float")
  | some s => Except.ok (step cfg exo enc s action)

/-- The environment state after `reset` followed by `k` calls of `step`
with actions `acts 0, …, acts (k-1)`. -/
def stateAfter (cfg : Config) (exo : ℕ → ℚ × ℚ) (enc : TrigEnc) (w0 : ℕ)
    (acts : ℕ → ℚ) : ℕ → EnvState
  | 0 => (reset cfg exo enc w0).2
  | k + 1 => (step cfg exo enc (stateAfter cfg exo enc w0 acts k) (acts k)).2

/-! ## Helper lemmas -/

theorem clip_le_right (x lo hi : ℚ) : clip x lo hi ≤ hi :=
  min_le_left hi (max x lo)

theorem le_clip_left (x lo hi : ℚ) (h : lo ≤ hi) : lo ≤ clip x lo hi :=
  le_min h (le_max_right x lo)

theorem clip_eq_self_iff (x lo hi : ℚ) (h : lo ≤ hi) :
    clip x lo hi = x ↔ lo ≤ x ∧ x ≤ hi := by
  constructor
  · intro hx
    refine ⟨?_, ?_⟩
    · calc lo ≤ clip x lo hi := le_clip_left x lo hi h
        _ = x := hx
    · calc x = clip x lo hi := hx.symm
        _ ≤ hi := clip_le_right x lo hi
  · rintro ⟨h1, h2⟩
    unfold clip
    rw [max_eq_left h1, min_eq_right h2]

theorem clip_of_mem (x lo hi : ℚ) (h1 : lo ≤ x) (h2 : x ≤ hi) :
    clip x lo hi = x := by
  unfold clip
  rw [max_eq_left h1, min_eq_right h2]

/-- The SoC returned by `_get_SoC` is always the clip of the proposed SoC:
in the violation branch by definition, and in the non-violation branch
because an in-range value is its own clip. -/
theorem get_SoC_SoC_eq (cfg : Config) (soc action : ℚ) (info : Info) :
    (get_SoC cfg soc action info).SoC =
      clip (soc + cfg.eta * (action * cfg.time_interval) / cfg.battery_capacity)
        cfg.SoC_min cfg.SoC_max := by
  unfold get_SoC
  dsimp only
  split_ifs with h
  · rfl
  · push_neg at h
    exact (clip_of_mem _ _ _ h.1 h.2).symm

/-- `_get_SoC` keeps the SoC within the configured bounds whenever
`SoC_min ≤ SoC_max`, regardless of the incoming SoC and action. -/
theorem get_SoC_bounds (cfg : Config) (hcfg : cfg.SoC_min ≤ cfg.SoC_max)
    (soc action : ℚ) (info : Info) :
    cfg.SoC_min ≤ (get_SoC cfg soc action info).SoC ∧
      (get_SoC cfg soc action info).SoC ≤ cfg.SoC_max := by
  rw [get_SoC_SoC_eq]
  exact ⟨le_clip_left _ _ _ hcfg, clip_le_right _ _ _⟩

/-- The final SoC of a `step` is the SoC of the second `_get_SoC` call. -/
theorem step_SoC_eq_second_update (cfg : Config) (exo : ℕ → ℚ × ℚ)
    (enc : TrigEnc) (s : EnvState) (action : ℚ) :
    (step cfg exo enc s action).2.SoC =
      (get_SoC cfg
        (get_SoC cfg s.SoC (clip action cfg.a_min cfg.a_max)
          (get_action_check cfg action
            (get_info { s with current_step := s.current_step + 1 })).info).SoC
        (resolve_actual (clip action cfg.a_min cfg.a_max) (netOf cfg exo s) -
          clip action cfg.a_min cfg.a_max)
        (get_SoC cfg s.SoC (clip action cfg.a_min cfg.a_max)
          (get_action_check cfg action
            (get_info { s with current_step := s.current_step + 1 })).info).info).SoC :=
  rfl

/-! ## Concrete instantiations used by witnesses and counterexamples -/

/-- Constant exogenous source: every hour yields the raw pair `(g, l)`. -/
def exoConst (g l : ℚ) : ℕ → ℚ × ℚ := fun _ => (g, l)

/-- Trivial cyclic encoder (witnesses only need some `TrigEnc`). -/
def encZero : TrigEnc := { sin2pi := fun _ => 0, cos2pi := fun _ => 0 }

/-- A mid-range environment state at the reset instant of a Monday. -/
def sHalf : EnvState :=
  { SoC := mkRat 1 2, L := mkRat 1 2, G := mkRat 1 2, time := 0, week0 := 0,
    current_step := 0 }

/-! ## Claims -/

/-- C1: for every configuration with `SoC_min ≤ SoC_max`, the SoC held by
the environment lies in `[SoC_min, SoC_max]` after every `_get_SoC` call
(whatever the incoming SoC, action and info) and after every `step` call
(whatever the exogenous source, encoder, prior state and action). -/
theorem soc_invariant (cfg : Config) (hcfg : cfg.SoC_min ≤ cfg.SoC_max) :
    (∀ soc action info, cfg.SoC_min ≤ (get_SoC cfg soc action info).SoC ∧
        (get_SoC cfg soc action info).SoC ≤ cfg.SoC_max) ∧
    (∀ exo enc s a, cfg.SoC_min ≤ (step cfg exo enc s a).2.SoC ∧
        (step cfg exo enc s a).2.SoC ≤ cfg.SoC_max) := by
  refine ⟨fun soc action info => get_SoC_bounds cfg hcfg soc action info,
    fun exo enc s a => ?_⟩
  rw [step_SoC_eq_second_update]
  exact get_SoC_bounds cfg hcfg _ _ _

/-- Witness for C1 at the default configuration: an over-large charge
request from a mid-range state still lands inside the SoC bounds. -/
theorem soc_invariant_witness :
    defaultConfig.SoC_min ≤ defaultConfig.SoC_max ∧
    (defaultConfig.SoC_min ≤
        (step defaultConfig (exoConst (mkRat 1 2) (mkRat 1 2)) encZero sHalf 5).2.SoC ∧
      (step defaultConfig (exoConst (mkRat 1 2) (mkRat 1 2)) encZero sHalf 5).2.SoC ≤
        defaultConfig.SoC_max) :=
  ⟨by decide,
    (soc_invariant defaultConfig (by decide)).2 (exoConst (mkRat 1 2) (mkRat 1 2))
      encZero sHalf 5⟩

/-- C9: for every configuration and every SoC within the configured bounds,
`_get_SoC` with action `0` returns the same SoC and a zero penalty. -/
theorem soc_update_zero_identity (cfg : Config) (soc : ℚ) (info : Info)
    (h1 : cfg.SoC_min ≤ soc) (h2 : soc ≤ cfg.SoC_max) :
    (get_SoC cfg soc 0 info).SoC = soc ∧ (get_SoC cfg soc 0 info).penalty = 0 := by
  have hp : soc + cfg.eta * (0 * cfg.time_interval) / cfg.battery_capacity = soc := by
    ring
  unfold get_SoC
  dsimp only
  rw [hp]
  split_ifs with h
  · rcases h with h | h
    · exact absurd h1 (not_le.mpr h)
    · exact absurd h2 (not_le.mpr h)
  · constructor
    · rfl
    · dsimp only
      rw [sub_self, abs_zero, mul_zero]

/-- Witness for C9 at the default configuration with `SoC = 1/2`. -/
theorem soc_update_zero_identity_witness :
    defaultConfig.SoC_min ≤ mkRat 1 2 ∧ (mkRat 1 2 : ℚ) ≤ defaultConfig.SoC_max ∧
    (get_SoC defaultConfig (mkRat 1 2) 0 (get_info sHalf)).SoC = mkRat 1 2 ∧
    (get_SoC defaultConfig (mkRat 1 2) 0 (get_info sHalf)).penalty = 0 := by
  refine ⟨by decide, by decide, ?_⟩
  have h := soc_update_zero_identity defaultConfig (mkRat 1 2) (get_info sHalf)
    (by decide) (by decide)
  exact ⟨h.1, h.2⟩

/-- C4: for every configuration with `a_min ≤ a_max` and every action, the
action corrector returns `clamp(action, a_min, a_max)` (hence a value inside
the envelope), its penalty is `miu_p` times the violation magnitude
`|action - corrected|`, that magnitude is zero exactly when the action was
already inside the envelope, and whenever the action changed an
action-violation record with the requested and corrected values is appended
to `info['violations_action']`. -/
theorem action_corrector_correct (cfg : Config) (hcfg : cfg.a_min ≤ cfg.a_max)
    (action : ℚ) (info : Info) :
    (get_action_check cfg action info).action = clip action cfg.a_min cfg.a_max ∧
    cfg.a_min ≤ (get_action_check cfg action info).action ∧
    (get_action_check cfg action info).action ≤ cfg.a_max ∧
    (get_action_check cfg action info).penalty =
      cfg.miu_p * |action - (get_action_check cfg action info).action| ∧
    (|action - (get_action_check cfg action info).action| = 0 ↔
      cfg.a_min ≤ action ∧ action ≤ cfg.a_max) ∧
    (action ≠ clip action cfg.a_min cfg.a_max →
      (get_action_check cfg action info).info.violations_action =
        info.violations_action ++
          [ActionViolation.mk action (clip action cfg.a_min cfg.a_max)]) := by
  unfold get_action_check
  dsimp only
  refine ⟨rfl, le_clip_left _ _ _ hcfg, clip_le_right _ _ _, rfl, ?_, ?_⟩
  · rw [abs_eq_zero, sub_eq_zero, eq_comm]
    exact clip_eq_self_iff action cfg.a_min cfg.a_max hcfg
  · intro h
    rw [if_pos h]

/-- Witness for C4 at the default configuration: the out-of-range request
`2` is clamped to `1`, with a penalty of `10 * 1` and a recorded violation. -/
theorem action_corrector_correct_witness :
    defaultConfig.a_min ≤ defaultConfig.a_max ∧
    ((get_action_check defaultConfig 2 (get_info sHalf)).action =
        clip 2 defaultConfig.a_min defaultConfig.a_max ∧
      defaultConfig.a_min ≤ (get_action_check defaultConfig 2 (get_info sHalf)).action ∧
      (get_action_check defaultConfig 2 (get_info sHalf)).action ≤ defaultConfig.a_max ∧
      (get_action_check defaultConfig 2 (get_info sHalf)).penalty =
        defaultConfig.miu_p *
          |2 - (get_action_check defaultConfig 2 (get_info sHalf)).action| ∧
      (|2 - (get_action_check defaultConfig 2 (get_info sHalf)).action| = 0 ↔
        defaultConfig.a_min ≤ 2 ∧ (2 : ℚ) ≤ defaultConfig.a_max) ∧
      ((2 : ℚ) ≠ clip 2 defaultConfig.a_min defaultConfig.a_max →
        (get_action_check defaultConfig 2 (get_info sHalf)).info.violations_action =
          (get_info sHalf).violations_action ++
            [ActionViolation.mk 2 (clip 2 defaultConfig.a_min defaultConfig.a_max)])) :=
  ⟨by decide, action_corrector_correct defaultConfig (by decide) 2 (get_info sHalf)⟩

/-- Restatement of the tariff schedule in the words of the specification
(§4.4): Monday-Friday (weekday 0-4) the high tier for hour in [8,19), the
mid tier for hour in [7,8) ∪ [19,23), the low tier otherwise; Saturday
(weekday 5) the mid tier for hour in [7,23) and the low tier otherwise;
Sunday always the low tier.  Written for comparison against `get_price`. -/
def tariff_spec (cfg : Config) (day_of_week hour : ℕ) : ℚ :=
  if day_of_week ≤ 4 then
    if 8 ≤ hour ∧ hour < 19 then cfg.Price_max
    else if (7 ≤ hour ∧ hour < 8) ∨ (19 ≤ hour ∧ hour < 23) then cfg.Price_mid
    else cfg.Price_min
  else if day_of_week = 5 then
    if 7 ≤ hour ∧ hour < 23 then cfg.Price_mid
    else cfg.Price_min
  else cfg.Price_min

/-- C5: for every configuration the tariff lookup is a total deterministic
function of `(weekday, hour)` agreeing with the specification's schedule,
and it always returns one of the three configured price tiers. -/
theorem tariff_schedule_correct (cfg : Config) (day_of_week hour : ℕ) :
    get_price cfg day_of_week hour = tariff_spec cfg day_of_week hour ∧
    (get_price cfg day_of_week hour = cfg.Price_min ∨
      get_price cfg day_of_week hour = cfg.Price_mid ∨
      get_price cfg day_of_week hour = cfg.Price_max) := by
  constructor
  · unfold get_price tariff_spec
    by_cases h1 : day_of_week < 5
    · rw [if_pos h1, if_pos (by omega : day_of_week ≤ 4)]
    · rw [if_neg h1, if_neg (by omega : ¬ day_of_week ≤ 4)]
  · unfold get_price
    split_ifs <;> tauto

/-- A `step` call increments the step counter by one. -/
theorem step_current_step (cfg : Config) (exo : ℕ → ℚ × ℚ) (enc : TrigEnc)
    (s : EnvState) (action : ℚ) :
    (step cfg exo enc s action).2.current_step = s.current_step + 1 :=
  rfl

/-- The `done` flag returned by `step` is exactly
`current_step >= max_steps` evaluated on the incremented counter. -/
theorem step_terminated_eq (cfg : Config) (exo : ℕ → ℚ × ℚ) (enc : TrigEnc)
    (s : EnvState) (action : ℚ) :
    (step cfg exo enc s action).1.terminated =
      decide (cfg.max_steps ≤ s.current_step + 1) :=
  rfl

/-- After `reset` and `k` further `step` calls the step counter equals `k`. -/
theorem stateAfter_current_step (cfg : Config) (exo : ℕ → ℚ × ℚ)
    (enc : TrigEnc) (w0 : ℕ) (acts : ℕ → ℚ) (k : ℕ) :
    (stateAfter cfg exo enc w0 acts k).current_step = k := by
  induction k with
  | zero => rfl
  | succ n ih =>
    show (step cfg exo enc (stateAfter cfg exo enc w0 acts n) (acts n)).2.current_step
      = n + 1
    rw [step_current_step, ih]

/-- C6: in every episode (any configuration, exogenous source, encoder,
reset weekday and action sequence), the `(k+1)`-th `step` call returns
`terminated = true` exactly when the incremented step counter `k+1` has
reached `max_steps`, and `truncated` is false on every call. -/
theorem termination_exact (cfg : Config) (exo : ℕ → ℚ × ℚ) (enc : TrigEnc)
    (w0 : ℕ) (acts : ℕ → ℚ) (k : ℕ) :
    ((step cfg exo enc (stateAfter cfg exo enc w0 acts k) (acts k)).1.terminated =
        true ↔ cfg.max_steps ≤ k + 1) ∧
    (step cfg exo enc (stateAfter cfg exo enc w0 acts k) (acts k)).1.truncated =
      false := by
  refine ⟨?_, rfl⟩
  rw [step_terminated_eq, stateAfter_current_step, decide_eq_true_eq]

/-- C8 (amended): the simulation clock advances by exactly one hour per
`step` call — `self.time += datetime.timedelta(hours=1)` (line 256) — for
every configuration, in particular independently of `time_interval`. -/
theorem clock_advances_one_hour (cfg : Config) (exo : ℕ → ℚ × ℚ)
    (enc : TrigEnc) (s : EnvState) (action : ℚ) :
    (step cfg exo enc s action).2.time = s.time + 1 :=
  rfl

/-- The default configuration with a two-hour step duration. -/
def cfgTwoHour : Config := { defaultConfig with time_interval := 2 }

/-- Counterexample to C8 as stated: with `time_interval = 2` the clock
still advances by one hour per step, not by the configured two hours. -/
theorem clock_advance_counterexample :
    cfgTwoHour.time_interval = 2 ∧
    (step cfgTwoHour (exoConst (mkRat 1 2) (mkRat 1 2)) encZero sHalf 0).2.time -
      sHalf.time = 1 ∧
    (1 : ℕ) ≠ 2 :=
  ⟨rfl, rfl, by decide⟩

/-- C7 (amended): calling `step` before any `reset` fails with an unhandled
`TypeError` from the uninitialized (`None`) state, which is surfaced to the
caller; but calling `step` again after a step has returned
`terminated = true` raises no error at all — the call executes normally
(there is no usage check in `step`). -/
theorem step_usage_behavior (cfg : Config) (exo : ℕ → ℚ × ℚ) (enc : TrigEnc)
    (action : ℚ) :
    (stepChecked cfg exo enc none action).isOk = false ∧
    ∀ s : EnvState, (stepChecked cfg exo enc (some s) action).isOk = true :=
  ⟨rfl, fun _ => rfl⟩

/-- An environment state whose next step is the 24th and last of the
default-length episode. -/
def s23 : EnvState :=
  { SoC := mkRat 1 2, L := mkRat 1 2, G := mkRat 1 2, time := 23, week0 := 0,
    current_step := 23 }

/-- Counterexample to C7 as stated: the 24th step from `s23` returns
`terminated = true`, yet calling `step` again on the resulting state
succeeds — no `UsageError` (nor any other error) is raised. -/
theorem step_after_terminated_counterexample :
    (step defaultConfig (exoConst (mkRat 1 2) (mkRat 1 2)) encZero s23 0).1.terminated =
      true ∧
    (stepChecked defaultConfig (exoConst (mkRat 1 2) (mkRat 1 2)) encZero
      (some (step defaultConfig (exoConst (mkRat 1 2) (mkRat 1 2)) encZero s23 0).2)
      0).isOk = true :=
  ⟨rfl, rfl⟩

/-- C10: in the observation returned by `step`, the load and generation
components are the exogenous values sampled at the hour of the clock before
the advance (line 203 precedes line 256), while the four cyclic
time-encoding components are computed from the clock after the advance
(line 259 follows line 256) — two timestamps one step apart. -/
theorem obs_timestamp_skew (cfg : Config) (exo : ℕ → ℚ × ℚ) (enc : TrigEnc)
    (s : EnvState) (action : ℚ) :
    (step cfg exo enc s action).1.observation.L =
      clip (exo (hourOf s.time)).2 cfg.Load_min cfg.Load_max ∧
    (step cfg exo enc s action).1.observation.G =
      clip (exo (hourOf s.time)).1 cfg.Generation_min cfg.Generation_max ∧
    (step cfg exo enc s action).1.observation.hour_sin =
      enc.sin2pi ((hourOf (s.time + 1) : ℚ) / 24) ∧
    (step cfg exo enc s action).1.observation.hour_cos =
      enc.cos2pi ((hourOf (s.time + 1) : ℚ) / 24) ∧
    (step cfg exo enc s action).1.observation.day_sin =
      enc.sin2pi ((weekdayOf s.week0 (s.time + 1) : ℚ) / 7) ∧
    (step cfg exo enc s action).1.observation.day_cos =
      enc.cos2pi ((weekdayOf s.week0 (s.time + 1) : ℚ) / 7) :=
  ⟨rfl, rfl, rfl, rfl, rfl, rfl⟩

/-- The penalty returned by `_get_SoC` is always `lamda_p` times the
distance between the proposed SoC and its clip. -/
theorem get_SoC_penalty_eq (cfg : Config) (soc action : ℚ) (info : Info) :
    (get_SoC cfg soc action info).penalty =
      cfg.lamda_p *
        |soc + cfg.eta * (action * cfg.time_interval) / cfg.battery_capacity -
          clip (soc + cfg.eta * (action * cfg.time_interval) / cfg.battery_capacity)
            cfg.SoC_min cfg.SoC_max| := by
  unfold get_SoC
  dsimp only
  split_ifs with h
  · rfl
  · push_neg at h
    rw [clip_of_mem _ _ _ h.1 h.2]

/-- `_get_SoC` appends exactly its own penalty to `info['penalty_SoC']`. -/
theorem get_SoC_info_penalty_list (cfg : Config) (soc action : ℚ) (info : Info) :
    (get_SoC cfg soc action info).info.penalty_SoC =
      info.penalty_SoC ++ [(get_SoC cfg soc action info).penalty] := by
  unfold get_SoC
  dsimp only
  split_ifs <;> rfl

/-- `_get_action_check` leaves `info['penalty_SoC']` untouched. -/
theorem get_action_check_info_penalty (cfg : Config) (action : ℚ) (info : Info) :
    (get_action_check cfg action info).info.penalty_SoC = info.penalty_SoC := by
  unfold get_action_check
  dsimp only
  split_ifs <;> rfl

/-- The info dictionary returned by `step` is the one threaded through the
second `_get_SoC` call. -/
theorem step_info_eq_second_update (cfg : Config) (exo : ℕ → ℚ × ℚ)
    (enc : TrigEnc) (s : EnvState) (action : ℚ) :
    (step cfg exo enc s action).1.info =
      (get_SoC cfg
        (get_SoC cfg s.SoC (clip action cfg.a_min cfg.a_max)
          (get_action_check cfg action
            (get_info { s with current_step := s.current_step + 1 })).info).SoC
        (resolve_actual (clip action cfg.a_min cfg.a_max) (netOf cfg exo s) -
          clip action cfg.a_min cfg.a_max)
        (get_SoC cfg s.SoC (clip action cfg.a_min cfg.a_max)
          (get_action_check cfg action
            (get_info { s with current_step := s.current_step + 1 })).info).info).info :=
  rfl

/-- C3 (amended): whenever the first SoC update (with the corrected action)
stays within the SoC bounds, the net effect of the two SoC-update
applications equals a single application with the resolved `actual` action:
the final SoC is `clip(SoC_before + eta * actual * dt / C)`.  Moreover the
step's SoC-penalty list records exactly the two applications' penalties —
`0` for the unclamped first application and the residual application's
penalty second — so the residual penalty enters the step's SoC penalty
total.  (Without the hypothesis the equation fails: see the counterexample,
where the first application clamps and information is lost.) -/
theorem two_pass_update_of_first_in_range (cfg : Config) (exo : ℕ → ℚ × ℚ)
    (enc : TrigEnc) (s : EnvState) (a : ℚ)
    (h1 : cfg.SoC_min ≤ s.SoC +
      cfg.eta * (clip a cfg.a_min cfg.a_max * cfg.time_interval) /
        cfg.battery_capacity)
    (h2 : s.SoC +
      cfg.eta * (clip a cfg.a_min cfg.a_max * cfg.time_interval) /
        cfg.battery_capacity ≤ cfg.SoC_max) :
    (step cfg exo enc s a).2.SoC =
      clip (s.SoC +
        cfg.eta * (resolve_actual (clip a cfg.a_min cfg.a_max) (netOf cfg exo s) *
          cfg.time_interval) / cfg.battery_capacity)
        cfg.SoC_min cfg.SoC_max ∧
    (step cfg exo enc s a).1.info.penalty_SoC =
      [0, cfg.lamda_p *
        |s.SoC + cfg.eta * (resolve_actual (clip a cfg.a_min cfg.a_max)
            (netOf cfg exo s) * cfg.time_interval) / cfg.battery_capacity -
          clip (s.SoC + cfg.eta * (resolve_actual (clip a cfg.a_min cfg.a_max)
              (netOf cfg exo s) * cfg.time_interval) / cfg.battery_capacity)
            cfg.SoC_min cfg.SoC_max|] := by
  have hr1 : (get_SoC cfg s.SoC (clip a cfg.a_min cfg.a_max)
      (get_action_check cfg a
        (get_info { s with current_step := s.current_step + 1 })).info).SoC =
      s.SoC + cfg.eta * (clip a cfg.a_min cfg.a_max * cfg.time_interval) /
        cfg.battery_capacity := by
    rw [get_SoC_SoC_eq]
    exact clip_of_mem _ _ _ h1 h2
  have harg : s.SoC +
      cfg.eta * (clip a cfg.a_min cfg.a_max * cfg.time_interval) /
        cfg.battery_capacity +
      cfg.eta * ((resolve_actual (clip a cfg.a_min cfg.a_max) (netOf cfg exo s) -
          clip a cfg.a_min cfg.a_max) * cfg.time_interval) / cfg.battery_capacity =
      s.SoC + cfg.eta * (resolve_actual (clip a cfg.a_min cfg.a_max)
        (netOf cfg exo s) * cfg.time_interval) / cfg.battery_capacity := by
    ring
  constructor
  · rw [step_SoC_eq_second_update, get_SoC_SoC_eq, hr1, harg]
  · rw [step_info_eq_second_update, get_SoC_info_penalty_list,
      get_SoC_info_penalty_list, get_action_check_info_penalty]
    have hpen1 : (get_SoC cfg s.SoC (clip a cfg.a_min cfg.a_max)
        (get_action_check cfg a
          (get_info { s with current_step := s.current_step + 1 })).info).penalty =
        0 := by
      rw [get_SoC_penalty_eq, clip_of_mem _ _ _ h1 h2, sub_self, abs_zero, mul_zero]
    have hpen2 : (get_SoC cfg
        (get_SoC cfg s.SoC (clip a cfg.a_min cfg.a_max)
          (get_action_check cfg a
            (get_info { s with current_step := s.current_step + 1 })).info).SoC
        (resolve_actual (clip a cfg.a_min cfg.a_max) (netOf cfg exo s) -
          clip a cfg.a_min cfg.a_max)
        (get_SoC cfg s.SoC (clip a cfg.a_min cfg.a_max)
          (get_action_check cfg a
            (get_info { s with current_step := s.current_step + 1 })).info).info).penalty =
        cfg.lamda_p *
          |s.SoC + cfg.eta * (resolve_actual (clip a cfg.a_min cfg.a_max)
              (netOf cfg exo s) * cfg.time_interval) / cfg.battery_capacity -
            clip (s.SoC + cfg.eta * (resolve_actual (clip a cfg.a_min cfg.a_max)
                (netOf cfg exo s) * cfg.time_interval) / cfg.battery_capacity)
              cfg.SoC_min cfg.SoC_max| := by
      rw [get_SoC_penalty_eq, hr1, harg]
    rw [hpen1, hpen2]
    have hinfo1 : (get_SoC cfg s.SoC (clip a cfg.a_min cfg.a_max)
        (get_action_check cfg a
          (get_info { s with current_step := s.current_step + 1 })).info).info.penalty_SoC =
        (get_action_check cfg a
          (get_info { s with current_step := s.current_step + 1 })).info.penalty_SoC ++
          [0] := by
      rw [get_SoC_info_penalty_list, hpen1]
    rw [get_action_check_info_penalty] at hinfo1
    simp [get_info] at hinfo1 ⊢

/-- C2 (failing input for the source's resolver): with a discharge request
`a_c = -1/2` against a surplus `net = -3/10`, the source's
`min(-a_c, net_load)` (line 213, with no `max(net_load, 0)` guard) yields
`actual = 3/10` — a positive (charging) action outside `[a_c, 0]`, i.e. the
battery acts into a surplus, contradicting the comment "Ensure battery only
discharges when there's net load to cover" — whereas the claimed rule
`actual = -min(-a_c, max(net, 0))` yields `0`. -/
theorem resolver_discharges_into_surplus :
    resolve_actual (mkRat (-1) 2) (mkRat (-3) 10) = mkRat 3 10 ∧
    (0 : ℚ) < mkRat 3 10 ∧
    -(min (-(mkRat (-1) 2 : ℚ)) (max (mkRat (-3) 10 : ℚ) 0)) = 0 := by
  refine ⟨?_, by decide, ?_⟩ <;>
    norm_num [resolve_actual, min_def, max_def, Rat.mkRat_eq_divInt,
      Rat.divInt_eq_div]

/-- An environment state whose SoC `9/10` is close to the default
`SoC_max = 95/100`. -/
def sNearFull : EnvState :=
  { SoC := mkRat 9 10, L := mkRat 1 2, G := mkRat 1 2, time := 0, week0 := 0,
    current_step := 0 }

/-- Counterexample to C3 as stated: from `SoC = 9/10` with a full charge
request `a = 1` and zero net load (`L = G = 1/2`), the resolver gives
`actual = 0`, yet the two-pass update ends at `SoC = 86/100` (the first
application clamps `99/100` to `95/100`, then the residual `-1` is applied
from there), while a single application with `actual = 0` would leave
`SoC = 9/10`. -/
theorem two_pass_update_counterexample :
    resolve_actual (clip 1 defaultConfig.a_min defaultConfig.a_max)
      (netOf defaultConfig (exoConst (mkRat 1 2) (mkRat 1 2)) sNearFull) = 0 ∧
    (step defaultConfig (exoConst (mkRat 1 2) (mkRat 1 2)) encZero sNearFull
      1).2.SoC = mkRat 86 100 ∧
    clip (sNearFull.SoC + defaultConfig.eta *
        ((0 : ℚ) * defaultConfig.time_interval) / defaultConfig.battery_capacity)
      defaultConfig.SoC_min defaultConfig.SoC_max = mkRat 9 10 ∧
    (mkRat 86 100 : ℚ) ≠ mkRat 9 10 := by
  refine ⟨?_, ?_, ?_, by decide⟩ <;>
    norm_num [step, get_SoC, get_action_check, get_info,
      update_generation_and_load, resolve_actual, netOf, clip, exoConst,
      defaultConfig, sNearFull, hourOf, min_def, max_def, Rat.mkRat_eq_divInt,
      Rat.divInt_eq_div]

/-- Witness for C3 (amended) at the default configuration: a discharge
request `-1/2` against a unit net deficit keeps the first update in range,
and the two-pass update indeed lands at the single-application value. -/
theorem two_pass_update_of_first_in_range_witness :
    (defaultConfig.SoC_min ≤ sHalf.SoC +
      defaultConfig.eta * (clip (mkRat (-1) 2) defaultConfig.a_min
        defaultConfig.a_max * defaultConfig.time_interval) /
        defaultConfig.battery_capacity) ∧
    (sHalf.SoC + defaultConfig.eta * (clip (mkRat (-1) 2) defaultConfig.a_min
        defaultConfig.a_max * defaultConfig.time_interval) /
        defaultConfig.battery_capacity ≤ defaultConfig.SoC_max) ∧
    ((step defaultConfig (exoConst 0 1) encZero sHalf (mkRat (-1) 2)).2.SoC =
      clip (sHalf.SoC + defaultConfig.eta *
        (resolve_actual (clip (mkRat (-1) 2) defaultConfig.a_min defaultConfig.a_max)
          (netOf defaultConfig (exoConst 0 1) sHalf) * defaultConfig.time_interval) /
        defaultConfig.battery_capacity) defaultConfig.SoC_min defaultConfig.SoC_max ∧
    (step defaultConfig (exoConst 0 1) encZero sHalf (mkRat (-1) 2)).1.info.penalty_SoC =
      [0, defaultConfig.lamda_p *
        |sHalf.SoC + defaultConfig.eta *
            (resolve_actual (clip (mkRat (-1) 2) defaultConfig.a_min defaultConfig.a_max)
              (netOf defaultConfig (exoConst 0 1) sHalf) * defaultConfig.time_interval) /
            defaultConfig.battery_capacity -
          clip (sHalf.SoC + defaultConfig.eta *
              (resolve_actual (clip (mkRat (-1) 2) defaultConfig.a_min defaultConfig.a_max)
                (netOf defaultConfig (exoConst 0 1) sHalf) * defaultConfig.time_interval) /
              defaultConfig.battery_capacity)
            defaultConfig.SoC_min defaultConfig.SoC_max|]) :=
  ⟨by norm_num [defaultConfig, sHalf, clip, min_def, max_def,
      Rat.mkRat_eq_divInt, Rat.divInt_eq_div],
    by norm_num [defaultConfig, sHalf, clip, min_def, max_def,
      Rat.mkRat_eq_divInt, Rat.divInt_eq_div],
    two_pass_update_of_first_in_range defaultConfig (exoConst 0 1) encZero sHalf
      (mkRat (-1) 2)
      (by norm_num [defaultConfig, sHalf, clip, min_def, max_def,
        Rat.mkRat_eq_divInt, Rat.divInt_eq_div])
      (by norm_num [defaultConfig, sHalf, clip, min_def, max_def,
        Rat.mkRat_eq_divInt, Rat.divInt_eq_div])⟩

end BMS
